import Mathlib

/-!
Verification of the lfest-rs leveraged-futures exchange core.

A shallow embedding of the order-lifecycle and margin-accounting engine of
the `lfest-rs` repository.  Exact base-10 fixed-point decimals are modelled
by the rational numbers `ℚ` (multiplication and subtraction of decimals are
exact, so every computation the claims mention is represented exactly).
Each definition carries a reference to the source file it embeds; parts of
the repository that are not present under `src/` are marked
`Modelled from the spec:` and follow the specification text.
-/

namespace Lfest

/-- Side of an order or taker trade (src/src/types/side.rs). -/
inductive Side where
  | Buy
  | Sell
deriving DecidableEq, Repr

/-- Returns the inverted side (src/src/types/side.rs). -/
def Side.inverted : Side → Side
  | .Buy => .Sell
  | .Sell => .Buy

/-- The five well-known ledger accounts.  The account constants
`USER_WALLET_ACCOUNT`, `USER_POSITION_MARGIN_ACCOUNT`,
`USER_ORDER_MARGIN_ACCOUNT`, `EXCHANGE_FEE_ACCOUNT`, `TREASURY_ACCOUNT`
are used throughout src/src/position.rs and src/src/exchange.rs; the spec
fixes this closed set of five accounts. -/
inductive AccountId where
  | userWallet
  | userPositionMargin
  | userOrderMargin
  | exchangeFee
  | treasury
deriving DecidableEq, Repr

/-- A T-Account keeps track of debits and credits posted
(src/src/accounting/account.rs). -/
structure TAccount where
  debits_posted : ℚ
  credits_posted : ℚ
deriving DecidableEq, Repr

/-- Post a debit (src/src/accounting/account.rs, `post_debit`). -/
def TAccount.post_debit (a : TAccount) (amount : ℚ) : TAccount :=
  { a with debits_posted := a.debits_posted + amount }

/-- Post a credit (src/src/accounting/account.rs, `post_credit`). -/
def TAccount.post_credit (a : TAccount) (amount : ℚ) : TAccount :=
  { a with credits_posted := a.credits_posted + amount }

/-- The net balance of a T-Account: debits minus credits
(src/src/accounting/account.rs, `net_balance`). -/
def TAccount.net_balance (a : TAccount) : ℚ :=
  a.debits_posted - a.credits_posted

/-- The ledger: one T-Account for each of the five well-known accounts. -/
structure Ledger where
  user_wallet : TAccount
  user_position_margin : TAccount
  user_order_margin : TAccount
  exchange_fee : TAccount
  treasury : TAccount
deriving DecidableEq, Repr

/-- Read the T-Account of a given account id. -/
def Ledger.acct (l : Ledger) : AccountId → TAccount
  | .userWallet => l.user_wallet
  | .userPositionMargin => l.user_position_margin
  | .userOrderMargin => l.user_order_margin
  | .exchangeFee => l.exchange_fee
  | .treasury => l.treasury

/-- Replace the T-Account of a given account id. -/
def Ledger.setAcct (l : Ledger) : AccountId → TAccount → Ledger
  | .userWallet, a => { l with user_wallet := a }
  | .userPositionMargin, a => { l with user_position_margin := a }
  | .userOrderMargin, a => { l with user_order_margin := a }
  | .exchangeFee, a => { l with exchange_fee := a }
  | .treasury, a => { l with treasury := a }

/-- A transfer order between two accounts.  Mirrors `Transaction::new(a, b, amount)`
as used in src/src/position.rs and src/src/exchange.rs: the first account is
the debited one, the second the credited one.  The spec states:
"A `Transaction(from, to, amount)` increments `from.debits` and `to.credits`
by `amount`". -/
structure Transaction where
  debitAccount : AccountId
  creditAccount : AccountId
  amount : ℚ
deriving DecidableEq, Repr

/-- Modelled from the spec: `create_margin_transfer` of the accounting module
(the `TransactionAccounting` implementation is not under src/; only the
`TAccount` it is built on is, in src/src/accounting/account.rs).  The transfer
posts the amount as a debit on the debited account and as a credit on the
credited account, atomically. -/
def createMarginTransfer (t : Transaction) (l : Ledger) : Ledger :=
  let l1 := l.setAcct t.debitAccount ((l.acct t.debitAccount).post_debit t.amount)
  l1.setAcct t.creditAccount ((l1.acct t.creditAccount).post_credit t.amount)

/-- Net balance of one account in the ledger, as `margin_balance_of` returns it. -/
def Ledger.balanceOf (l : Ledger) (a : AccountId) : ℚ :=
  (l.acct a).net_balance

/-- Sum of the net balances of the five accounts. -/
def Ledger.sumNet (l : Ledger) : ℚ :=
  l.user_wallet.net_balance + l.user_position_margin.net_balance
    + l.user_order_margin.net_balance + l.exchange_fee.net_balance
    + l.treasury.net_balance

/-- Modelled from the spec: the initial ledger produced by
`TransactionAccounting::new(starting_wallet_balance)` (not under src/):
the user wallet account is debited the starting balance, all other accounts
start empty, so the sum of net balances starts at the wallet balance. -/
def Ledger.initial (startingWalletBalance : ℚ) : Ledger :=
  { user_wallet := ⟨startingWalletBalance, 0⟩
    user_position_margin := ⟨0, 0⟩
    user_order_margin := ⟨0, 0⟩
    exchange_fee := ⟨0, 0⟩
    treasury := ⟨0, 0⟩ }

/-- Linear-contract pnl (src/src/types/currency/quote_currency.rs,
`MarginCurrency::pnl` for `QuoteCurrency`):
`quantity.convert(exit) - quantity.convert(entry)` with an early zero
return for zero quantity; `convert` of a base quantity multiplies by the
price, so this is `quantity * exit_price - quantity * entry_price`. -/
def quotePnl (entry_price exit_price quantity : ℚ) : ℚ :=
  if quantity = 0 then 0
  else quantity * exit_price - quantity * entry_price

/-- A position of one direction: number of contracts and entry price
(src/src/position.rs, `PositionInner`). -/
structure PositionInner where
  quantity : ℚ
  entry_price : ℚ
deriving DecidableEq, Repr

/-- The new average entry price when `added_qty` contracts are added at
`entry_price` (src/src/position.rs, `new_avg_entry_price`):
`(self.quantity * self.entry_price + added_qty * entry_price) / (self.quantity + added_qty)`. -/
def PositionInner.new_avg_entry_price (p : PositionInner)
    (added_qty entry_price : ℚ) : ℚ :=
  (p.quantity * p.entry_price + added_qty * entry_price)
    / (p.quantity + added_qty)

/-- Open a new position of `qty` contracts at `entry_price`
(src/src/position.rs, `PositionInner::new`): reserves
`qty.convert(entry_price) * init_margin_req` from the wallet into the
position-margin account. -/
def PositionInner.new (qty entry_price : ℚ) (l : Ledger)
    (init_margin_req : ℚ) : PositionInner × Ledger :=
  let margin := qty * entry_price * init_margin_req
  (⟨qty, entry_price⟩,
    createMarginTransfer ⟨.userPositionMargin, .userWallet, margin⟩ l)

/-- Add contracts to the position (src/src/position.rs,
`PositionInner::increase_contracts`).  The source mutates `self.quantity`
first and only then assigns
`self.entry_price = self.new_avg_entry_price(qty, entry_price)`, so the
average is computed on the already increased quantity.  The margin
transfer reserves `qty.convert(entry_price) * init_margin_req`. -/
def PositionInner.increase_contracts (p : PositionInner)
    (qty entry_price : ℚ) (l : Ledger) (init_margin_req : ℚ) :
    PositionInner × Ledger :=
  let afterQty : PositionInner := ⟨p.quantity + qty, p.entry_price⟩
  let p1 : PositionInner :=
    ⟨afterQty.quantity, afterQty.new_avg_entry_price qty entry_price⟩
  let margin := qty * entry_price * init_margin_req
  (p1, createMarginTransfer ⟨.userPositionMargin, .userWallet, margin⟩ l)

/-- Add contracts to the position, as src/src/position_inner.rs
(`PositionInner::increase_contracts`) does it: there the entry price is
updated from the old quantity before the quantity is increased. -/
def PositionInner.increase_contracts_fixed (p : PositionInner)
    (qty entry_price : ℚ) (l : Ledger) (init_margin_req : ℚ) :
    PositionInner × Ledger :=
  let p1 : PositionInner :=
    ⟨p.quantity + qty, p.new_avg_entry_price qty entry_price⟩
  let margin := qty * entry_price * init_margin_req
  (p1, createMarginTransfer ⟨.userPositionMargin, .userWallet, margin⟩ l)

/-- Decrease the position (src/src/position.rs,
`PositionInner::decrease_contracts`): realizes pnl on the decreased
quantity against the treasury and frees
`qty.convert(self.entry_price) * init_margin_req` of position margin back
to the wallet.  The entry price is unchanged. -/
def PositionInner.decrease_contracts (p : PositionInner)
    (qty liquidation_price : ℚ) (l : Ledger)
    (init_margin_req direction_multiplier : ℚ) : PositionInner × Ledger :=
  let p1 : PositionInner := ⟨p.quantity - qty, p.entry_price⟩
  let pnl := quotePnl p.entry_price liquidation_price
    (qty * direction_multiplier)
  let l1 :=
    if 0 < pnl then createMarginTransfer ⟨.userWallet, .treasury, pnl⟩ l
    else if pnl < 0 then
      createMarginTransfer ⟨.treasury, .userWallet, |pnl|⟩ l
    else l
  let margin_to_free := qty * p.entry_price * init_margin_req
  (p1,
    createMarginTransfer ⟨.userWallet, .userPositionMargin, margin_to_free⟩ l1)

/-- The unrealized pnl of a `PositionInner`
(src/src/position.rs, `PositionInner::unrealized_pnl`):
`pnl(entry_price, mark_to_market_price, quantity * direction_multiplier)`. -/
def PositionInner.unrealized_pnl (p : PositionInner)
    (mark_to_market_price direction_multiplier : ℚ) : ℚ :=
  quotePnl p.entry_price mark_to_market_price
    (p.quantity * direction_multiplier)

/-- A futures position (src/src/position.rs, `Position`). -/
inductive Position where
  | Neutral
  | Long (inner : PositionInner)
  | Short (inner : PositionInner)
deriving DecidableEq, Repr

/-- The unrealized profit and loss of the position
(src/src/position.rs, `Position::unrealized_pnl`):
Neutral is zero; Long is `inner.unrealized_pnl(bid, 1)`; Short is
`inner.unrealized_pnl(ask, -1).into_negative()`, that is the negation of
the inner pnl taken with direction multiplier `-1`. -/
def Position.unrealized_pnl (pos : Position) (bid ask : ℚ) : ℚ :=
  match pos with
  | .Neutral => 0
  | .Long inner => inner.unrealized_pnl bid 1
  | .Short inner => -(inner.unrealized_pnl ask (-1))

/-- Change a position while doing the accounting and balance transfers
(src/src/position.rs, `Position::change_position`).  Returns the new
position together with the ledger after all margin transfers. -/
def Position.change_position (pos : Position)
    (filled_qty fill_price : ℚ) (side : Side) (l : Ledger)
    (init_margin_req : ℚ) : Position × Ledger :=
  match pos, side with
  | .Neutral, .Buy =>
      let r := PositionInner.new filled_qty fill_price l init_margin_req
      (.Long r.1, r.2)
  | .Neutral, .Sell =>
      let r := PositionInner.new filled_qty fill_price l init_margin_req
      (.Short r.1, r.2)
  | .Long inner, .Buy =>
      let r := inner.increase_contracts filled_qty fill_price l init_margin_req
      (.Long r.1, r.2)
  | .Long inner, .Sell =>
      if inner.quantity < filled_qty then
        let new_short_qty := filled_qty - inner.quantity
        let r1 := inner.decrease_contracts inner.quantity fill_price l
          init_margin_req 1
        let r2 := PositionInner.new new_short_qty fill_price r1.2 init_margin_req
        (.Short r2.1, r2.2)
      else if filled_qty = inner.quantity then
        let r1 := inner.decrease_contracts filled_qty fill_price l
          init_margin_req 1
        (.Neutral, r1.2)
      else
        let r1 := inner.decrease_contracts filled_qty fill_price l
          init_margin_req 1
        (.Long r1.1, r1.2)
  | .Short inner, .Buy =>
      if inner.quantity < filled_qty then
        let new_long_qty := filled_qty - inner.quantity
        let r1 := inner.decrease_contracts inner.quantity fill_price l
          init_margin_req (-1)
        let r2 := PositionInner.new new_long_qty fill_price r1.2 init_margin_req
        (.Long r2.1, r2.2)
      else if filled_qty = inner.quantity then
        let r1 := inner.decrease_contracts filled_qty fill_price l
          init_margin_req (-1)
        (.Neutral, r1.2)
      else
        let r1 := inner.decrease_contracts filled_qty fill_price l
          init_margin_req (-1)
        (.Short r1.1, r1.2)
  | .Short inner, .Sell =>
      let r := inner.increase_contracts filled_qty fill_price l init_margin_req
      (.Short r.1, r.2)

/-! ## Orders, trades and filters -/

/-- Configuration errors (src/src/order_filters/quantity_filter.rs uses
`InvalidMinQuantity` and `InvalidTickSize`; the full enum is in the error
module of the types directory). -/
inductive ConfigError where
  | InvalidMinQuantity
  | InvalidTickSize
deriving DecidableEq, Repr

/-- Order errors, as returned by the quantity filter and the limit order
checks in src/src/exchange.rs and src/src/order_filters/quantity_filter.rs. -/
inductive OrderError where
  | OrderQuantityLTEZero
  | QuantityTooLow
  | QuantityTooHigh
  | InvalidQuantityStepSize
  | LimitPriceAboveAsk
  | LimitPriceBelowBid
  | DuplicateUserOrderId
deriving DecidableEq, Repr

/-- Price filter errors (spec section 7). -/
inductive FilterError where
  | PriceTooLow
  | PriceTooHigh
  | InvalidTickSize
  | PriceTooFarFromMid
deriving DecidableEq, Repr

/-- Risk errors (spec section 7; `RiskError::NotEnoughAvailableBalance` is
matched in src/src/tests/submit_limit_buy_order.rs). -/
inductive RiskError where
  | NotEnoughAvailableBalance
  | MaintenanceMarginViolated
deriving DecidableEq, Repr

/-- Market update errors (spec section 7). -/
inductive MarketUpdateError where
  | NonMonotonicTimestamp
  | BidGreaterThanAsk
deriving DecidableEq, Repr

/-- The top-level error type returned by the public operations
(variants as matched in src/src/exchange.rs and its tests). -/
inductive Error where
  | orderError (e : OrderError)
  | filterError (e : FilterError)
  | riskError (e : RiskError)
  | marketUpdateError (e : MarketUpdateError)
  | OrderIdNotFound
  | UserOrderIdNotFound
deriving DecidableEq, Repr

/-- Truncation toward zero, as Rust division of integers and of
integer-scaled decimals truncates. -/
def truncQ (q : ℚ) : ℤ :=
  if 0 ≤ q then ⌊q⌋ else ⌈q⌉

/-- The Rust remainder `a % b` for exact decimals: the remainder of the
division truncated toward zero.  Only used where the divisor is known to be
nonzero; `remQ a 0` is never relied upon. -/
def remQ (a b : ℚ) : ℚ :=
  a - b * truncQ (a / b)

/-- The Rust remainder `a % b`, with the division-by-zero panic made
explicit: `none` models the panic. -/
def checkedRem (a b : ℚ) : Option ℚ :=
  if b = 0 then none else some (remQ a b)

/-- The quantity filter (src/src/order_filters/quantity_filter.rs). -/
structure QuantityFilter where
  min_quantity : Option ℚ
  max_quantity : Option ℚ
  tick_size : ℚ
deriving DecidableEq, Repr

/-- The default quantity filter: no min, no max, tick size one
(src/src/order_filters/quantity_filter.rs, `Default`). -/
def QuantityFilter.default : QuantityFilter :=
  ⟨none, none, 1⟩

/-- The quantity filter constructor (src/src/order_filters/quantity_filter.rs,
`QuantityFilter::new`).  The source first evaluates
`min_qty % tick_size` for a present minimum quantity and only afterwards
checks `tick_size == zero`; the remainder of a division by zero panics in
Rust, which is modelled by the `none` outcome of `checkedRem`. -/
def QuantityFilter.new (min_quantity max_quantity : Option ℚ)
    (tick_size : ℚ) : Option (Except ConfigError QuantityFilter) :=
  let tail : Option (Except ConfigError QuantityFilter) :=
    if tick_size = 0 then some (Except.error ConfigError.InvalidTickSize)
    else some (Except.ok ⟨min_quantity, max_quantity, tick_size⟩)
  match min_quantity with
  | none => tail
  | some min_qty =>
    match checkedRem min_qty tick_size with
    | none => none
    | some r =>
      if r ≠ 0 then some (Except.error ConfigError.InvalidMinQuantity)
      else tail

/-- Validate an order quantity (src/src/order_filters/quantity_filter.rs,
`validate_order_quantity`): zero is too low, then the max bound, then the
min bound, then the step size `(quantity - min_qty) % tick_size == 0`. -/
def QuantityFilter.validate_order_quantity (f : QuantityFilter)
    (quantity : ℚ) : Except OrderError Unit :=
  let step : ℚ → Except OrderError Unit := fun min_qty =>
    if remQ (quantity - min_qty) f.tick_size ≠ 0 then
      .error .InvalidQuantityStepSize
    else .ok ()
  let minAndStep : Except OrderError Unit :=
    match f.min_quantity with
    | some min_qty =>
      if quantity < min_qty then .error .QuantityTooLow
      else step min_qty
    | none => step 0
  if quantity = 0 then .error .QuantityTooLow
  else
    match f.max_quantity with
    | some max_qty =>
      if max_qty < quantity then .error .QuantityTooHigh
      else minAndStep
    | none => minAndStep

/-- Modelled from the spec: the price filter
(order_filters/price_filter.rs is not under src/).  Fields per spec
section 6: optional min and max price, tick size, and the maximal relative
deviation of a limit price from the mid price. -/
structure PriceFilter where
  min_price : Option ℚ
  max_price : Option ℚ
  tick_size : ℚ
  max_price_deviation : ℚ
deriving DecidableEq, Repr

/-- Modelled from the spec: `enforce_min_price` (named in
src/src/market_update/trade_update.rs; its body is not under src/): a price
below the configured minimum is `PriceTooLow`. -/
def enforce_min_price (min_price : Option ℚ) (price : ℚ) :
    Except FilterError Unit :=
  match min_price with
  | some m => if price < m then .error .PriceTooLow else .ok ()
  | none => .ok ()

/-- Modelled from the spec: `enforce_max_price` (named in
src/src/market_update/trade_update.rs): a price above the configured
maximum is `PriceTooHigh`. -/
def enforce_max_price (max_price : Option ℚ) (price : ℚ) :
    Except FilterError Unit :=
  match max_price with
  | some m => if m < price then .error .PriceTooHigh else .ok ()
  | none => .ok ()

/-- Modelled from the spec: `enforce_step_size` (named in
src/src/market_update/trade_update.rs): the price must be a whole multiple
of the tick size. -/
def enforce_step_size (tick_size price : ℚ) : Except FilterError Unit :=
  if remQ price tick_size ≠ 0 then .error .InvalidTickSize else .ok ()

/-- Fill information of a pending limit order
(src/src/types/order_status.rs, `FilledQuantity`). -/
inductive FilledQuantity where
  | Unfilled
  | Filled (cumulative_qty : ℚ) (avg_price : ℚ)
deriving DecidableEq, Repr

/-- A pending limit order: immutable identity (side, limit price, total
quantity), the exchange-assigned order id and the user order id from the
metadata, and the fill state (src/src/types/order_status.rs together with
the limit order type used by src/src/exchange.rs). -/
structure LimitOrder where
  oid : ℕ
  user_order_id : ℕ
  side : Side
  limit_price : ℚ
  quantity : ℚ
  filled_quantity : FilledQuantity
deriving DecidableEq, Repr

/-- The cumulative filled quantity of a pending order. -/
def LimitOrder.cumulative (o : LimitOrder) : ℚ :=
  match o.filled_quantity with
  | .Unfilled => 0
  | .Filled c _ => c

/-- The remaining (open) quantity of a pending order. -/
def LimitOrder.remaining_quantity (o : LimitOrder) : ℚ :=
  o.quantity - o.cumulative

/-- Modelled from the spec: `LimitOrder::fill` (the limit order methods are
not under src/).  A fill of a resting limit order executes at its limit
price; the cumulative quantity increases by the filled quantity and when it
reaches the total quantity the order is fully filled (spec section 4.5,
step 4, and the lifecycle in spec section 3).  Returns the updated order
and whether it is now fully filled. -/
def LimitOrder.fill (o : LimitOrder) (qty : ℚ) : LimitOrder × Bool :=
  let cum := o.cumulative + qty
  let o1 := { o with filled_quantity := .Filled cum o.limit_price }
  (o1, decide (cum = o.quantity))

/-- A taker trade that consumes liquidity
(src/src/market_update/trade_update.rs, `Trade`). -/
structure Trade where
  price : ℚ
  quantity : ℚ
  side : Side
deriving DecidableEq, Repr

/-- Whether (and by how much) a taker trade fills a resting limit order
(src/src/market_update/trade_update.rs, `Trade::limit_order_filled`):
a resting Buy at limit price `L` is filled by a Sell trade with
`trade.price < L`; a resting Sell at `L` is filled by a Buy trade with
`trade.price > L`; the fill quantity is
`min(trade.quantity, order.remaining_quantity())`. -/
def Trade.limit_order_filled (t : Trade) (o : LimitOrder) : Option ℚ :=
  match o.side with
  | .Buy =>
    if t.price < o.limit_price ∧ t.side = .Sell then
      some (min t.quantity o.remaining_quantity)
    else none
  | .Sell =>
    if o.limit_price < t.price ∧ t.side = .Buy then
      some (min t.quantity o.remaining_quantity)
    else none

/-- Validate a trade against the price filter
(src/src/market_update/trade_update.rs, `validate_market_update`):
min price, max price, step size. -/
def Trade.validate_market_update (t : Trade) (pf : PriceFilter) :
    Except FilterError Unit := do
  let _ ← enforce_min_price pf.min_price t.price
  let _ ← enforce_max_price pf.max_price t.price
  let _ ← enforce_step_size pf.tick_size t.price
  .ok ()

/-- A best-bid best-ask quote update.  Modelled from the spec
(market_update/mod.rs with the `Bba` variant is not under src/):
`Bba { bid, ask }` with `bid < ask`, both passing the price filter;
it updates the best quotes and never fills resting orders. -/
structure Bba where
  bid : ℚ
  ask : ℚ
deriving DecidableEq, Repr

/-- Modelled from the spec: validation of a `Bba` update — both prices pass
the price filter and `bid < ask` (violation is `BidGreaterThanAsk`). -/
def Bba.validate_market_update (b : Bba) (pf : PriceFilter) :
    Except Error Unit :=
  if ¬ b.bid < b.ask then .error (Error.marketUpdateError .BidGreaterThanAsk)
  else
    match enforce_min_price pf.min_price b.bid with
    | .error e => .error (Error.filterError e)
    | .ok _ =>
      match enforce_max_price pf.max_price b.ask with
      | .error e => .error (Error.filterError e)
      | .ok _ =>
        match enforce_step_size pf.tick_size b.bid with
        | .error e => .error (Error.filterError e)
        | .ok _ =>
          match enforce_step_size pf.tick_size b.ask with
          | .error e => .error (Error.filterError e)
          | .ok _ => .ok ()

/-- The market update variants used by the embedding: best-bid best-ask
quotes and taker trades (the `MarketUpdate` capability of
src/src/market_update/). -/
inductive MarketUpdate where
  | bba (b : Bba)
  | trade (t : Trade)
deriving DecidableEq, Repr

/-- Validation of a market update against the price filter: a `Bba` is
validated as the spec demands, a `Trade` as
src/src/market_update/trade_update.rs does. -/
def MarketUpdate.validate_market_update (mu : MarketUpdate)
    (pf : PriceFilter) : Except Error Unit :=
  match mu with
  | .bba b => b.validate_market_update pf
  | .trade t =>
    match t.validate_market_update pf with
    | .ok _ => .ok ()
    | .error e => .error (Error.filterError e)

/-- Whether a market update fills a resting limit order: a `Bba` never
fills (src/src/market_update/: Bba assumes worst queue position); a `Trade`
fills per `Trade::limit_order_filled`. -/
def MarketUpdate.limit_order_filled (mu : MarketUpdate) (o : LimitOrder) :
    Option ℚ :=
  match mu with
  | .bba _ => none
  | .trade t => t.limit_order_filled o

/-! ## Market state -/

/-- The market state (src/src/market_state.rs): current bid, ask, timestamp
in nanoseconds and step counter.  The source also stores the price filter
inside the struct; here the filter is passed to `update_state` explicitly,
carrying the same data. -/
structure MarketState where
  bid : ℚ
  ask : ℚ
  current_ts_ns : ℤ
  step : ℕ
deriving DecidableEq, Repr

/-- Apply a market update to the market state: a `Bba` sets bid and ask
(per the spec); a `Trade` changes nothing
(src/src/market_update/trade_update.rs, `update_market_state`). -/
def MarketUpdate.update_market_state (mu : MarketUpdate)
    (ms : MarketState) : MarketState :=
  match mu with
  | .bba b => { ms with bid := b.bid, ask := b.ask }
  | .trade _ => ms

/-- Update the market state with new information
(src/src/market_state.rs, `MarketState::update_state`): validate the market
update against the price filter, apply it, set `current_ts_ns` to the given
timestamp and increment the step counter.  The source body performs no
comparison of `timestamp_ns` with the stored `current_ts_ns`. -/
def MarketState.update_state (ms : MarketState) (timestamp_ns : ℤ)
    (mu : MarketUpdate) (pf : PriceFilter) : Except Error MarketState :=
  match mu.validate_market_update pf with
  | .error e => .error e
  | .ok _ =>
    let ms1 := mu.update_market_state ms
    .ok { ms1 with current_ts_ns := timestamp_ns, step := ms1.step + 1 }

/-- The mid price (src/src/market_state.rs, `mid_price`). -/
def MarketState.mid_price (ms : MarketState) : ℚ :=
  (ms.bid + ms.ask) / 2

/-! ## Order margin calculator (spec section 4.3) -/

/-- The long quantity of a position (zero unless Long). -/
def Position.longQty : Position → ℚ
  | .Long i => i.quantity
  | _ => 0

/-- The long entry price of a position (zero unless Long). -/
def Position.longEntry : Position → ℚ
  | .Long i => i.entry_price
  | _ => 0

/-- The short quantity of a position (zero unless Short). -/
def Position.shortQty : Position → ℚ
  | .Short i => i.quantity
  | _ => 0

/-- The short entry price of a position (zero unless Short). -/
def Position.shortEntry : Position → ℚ
  | .Short i => i.entry_price
  | _ => 0

/-- The (remaining qty, limit price) pairs of the buy orders of a list, in
list order (ascending order id). -/
def buysOf (orders : List LimitOrder) : List (ℚ × ℚ) :=
  (orders.filter (fun o => o.side == Side.Buy)).map
    (fun o => (o.remaining_quantity, o.limit_price))

/-- The (remaining qty, limit price) pairs of the sell orders of a list. -/
def sellsOf (orders : List LimitOrder) : List (ℚ × ℚ) :=
  (orders.filter (fun o => o.side == Side.Sell)).map
    (fun o => (o.remaining_quantity, o.limit_price))

/-- The total open quantity of a list of (qty, price) pairs. -/
def totalQty (l : List (ℚ × ℚ)) : ℚ :=
  (l.map Prod.fst).sum

/-- The notional left of a list of (remaining qty, limit price) pairs after
offsetting a total quantity `s` against it, consumed greedily front first
(ascending order id, the deterministic order the spec demands in
section 5). -/
def remainingNotional : List (ℚ × ℚ) → ℚ → ℚ
  | [], _ => 0
  | (q, p) :: rest, s => (q - min q s) * p + remainingNotional rest (s - min q s)

/-- The maker-fee reservation of a list of orders: per order, its open
notional times the maker fee rate (spec section 4.3: "The maker fee is
reserved in addition (fee = notional · maker_fee_rate) per order"). -/
def feeReserve (orders : List LimitOrder) (fee_maker : ℚ) : ℚ :=
  (orders.map (fun o => o.remaining_quantity * o.limit_price * fee_maker)).sum

/-- Modelled from the spec: the order-margin calculator
(order_margin.rs with `OrderMargin::order_margin` is not under src/).
Follows the algorithm of spec section 4.3 for linear contracts:
sum the open buy and sell quantities, offset the side that would close the
position by the position quantity (greedily in ascending order-id order),
take the notional of the remaining orders at their limit prices, subtract
the notional of the residual opposing position at its entry price clamped
at zero, and reserve `max(Nb, Ns) · init_margin_req` plus the per-order
maker-fee reservation. -/
def orderMargin (orders : List LimitOrder) (init_margin_req : ℚ)
    (pos : Position) (fee_maker : ℚ) : ℚ :=
  let buys := buysOf orders
  let sells := sellsOf orders
  let qb := totalQty buys
  let qs := totalQty sells
  let nb0 := remainingNotional buys pos.shortQty
  let ns0 := remainingNotional sells pos.longQty
  let residShortNotional := (pos.shortQty - min qb pos.shortQty) * pos.shortEntry
  let residLongNotional := (pos.longQty - min qs pos.longQty) * pos.longEntry
  let nb := max (nb0 - residShortNotional) 0
  let ns := max (ns0 - residLongNotional) 0
  max nb ns * init_margin_req + feeReserve orders fee_maker

/-! ## Risk engine (spec section 4.4, modelled) -/

/-- Modelled from the spec: the maintenance-margin check of the isolated
margin risk engine (risk_engine.rs is not under src/).  Per spec
section 4.4 the maintenance margin requirement equals the initial margin
requirement, i.e. the reserved position margin; the check fails exactly
when the mark-to-market equity (position margin plus unrealized pnl,
marked at the bid for longs and at the ask for shorts) drops below that
reservation, i.e. when the unrealized pnl is negative. -/
def check_maintenance_margin (ms : MarketState) (pos : Position) :
    Except RiskError Unit :=
  match pos with
  | .Neutral => .ok ()
  | .Long i =>
    if i.quantity * (ms.bid - i.entry_price) < 0 then
      .error .MaintenanceMarginViolated
    else .ok ()
  | .Short i =>
    if i.quantity * (i.entry_price - ms.ask) < 0 then
      .error .MaintenanceMarginViolated
    else .ok ()

/-- Modelled from the spec: `check_market_order` of the risk engine
(risk_engine.rs is not under src/).  A fill that extends the exposure must
fit its additional initial margin plus the taker fee within the available
wallet balance; a fill that only reduces the position passes. -/
def check_market_order (pos : Position) (side : Side)
    (qty fill_price available_wallet imr fee_taker : ℚ) :
    Except RiskError Unit :=
  let extending : Bool :=
    match pos, side with
    | .Neutral, _ => true
    | .Long _, .Buy => true
    | .Short _, .Sell => true
    | .Long i, .Sell => decide (i.quantity < qty)
    | .Short i, .Buy => decide (i.quantity < qty)
  if extending then
    if available_wallet < qty * fill_price * imr + qty * fill_price * fee_taker
    then .error .NotEnoughAvailableBalance
    else .ok ()
  else .ok ()

/-- Modelled from the spec: `check_limit_order` of the risk engine
(risk_engine.rs is not under src/).  Recomputes the prospective order
margin including the new order and requires the available wallet balance to
cover the increase. -/
def check_limit_order (pos : Position) (o : LimitOrder)
    (available_wallet : ℚ) (orders : List LimitOrder) (imr fee_maker : ℚ) :
    Except RiskError Unit :=
  let oldMargin := orderMargin orders imr pos fee_maker
  let newMargin := orderMargin (orders ++ [o]) imr pos fee_maker
  if available_wallet < newMargin - oldMargin then
    .error .NotEnoughAvailableBalance
  else .ok ()

/-- Modelled from the spec: `PriceFilter::validate_limit_order`
(order_filters/price_filter.rs is not under src/): the limit price passes
the min, max and tick checks and may not deviate from the mid price by
more than the configured fraction. -/
def PriceFilter.validate_limit_order (pf : PriceFilter)
    (limit_price mid : ℚ) : Except FilterError Unit := do
  let _ ← enforce_min_price pf.min_price limit_price
  let _ ← enforce_max_price pf.max_price limit_price
  let _ ← enforce_step_size pf.tick_size limit_price
  if pf.max_price_deviation * mid < |limit_price - mid| then
    .error .PriceTooFarFromMid
  else .ok ()

/-! ## The exchange -/

/-- The contract specification fields the core uses (the
contract_specification module is not under src/; fields per spec
section 6). -/
structure ContractSpec where
  init_margin_req : ℚ
  fee_maker : ℚ
  fee_taker : ℚ
  price_filter : PriceFilter
  quantity_filter : QuantityFilter
deriving DecidableEq, Repr

/-- The exchange configuration fields the core uses (src/src/config.rs,
reduced to the fields src/src/exchange.rs reads). -/
structure Config where
  starting_wallet_balance : ℚ
  contract_spec : ContractSpec
deriving DecidableEq, Repr

/-- Updates regarding limit orders returned by `update_state`
(src/src/types/order_update.rs, `LimitOrderUpdate`). -/
inductive LimitOrderUpdate where
  | FullyFilled (order : LimitOrder)
  | PartiallyFilled (order : LimitOrder)
deriving DecidableEq, Repr

/-- The main simulated exchange (src/src/exchange.rs, `Exchange`): the
configuration, market state, id counter, transaction accounting (the
ledger), the position, the active limit orders (kept in ascending
order-id order, the deterministic iteration order of the spec) and the
lookup from user order id to exchange order id. -/
structure Exchange where
  config : Config
  market_state : MarketState
  next_order_id : ℕ
  ledger : Ledger
  position : Position
  active_limit_orders : List LimitOrder
  lookup_order_nonce_from_user_order_id : List (ℕ × ℕ)
deriving DecidableEq, Repr

/-- Create a new exchange (src/src/exchange.rs, `Exchange::new`): default
market state, order id zero, neutral position, no orders, and the
accounting initialized with the starting wallet balance. -/
def Exchange.new (config : Config) : Exchange :=
  { config := config
    market_state := ⟨0, 0, 0, 0⟩
    next_order_id := 0
    ledger := Ledger.initial config.starting_wallet_balance
    position := .Neutral
    active_limit_orders := []
    lookup_order_nonce_from_user_order_id := [] }

/-- Remove a fee amount from the wallet balance into the fee account
(src/src/exchange.rs, `detract_fee`):
`Transaction::new(EXCHANGE_FEE_ACCOUNT, USER_WALLET_ACCOUNT, trade_value * fee)`. -/
def detract_fee (l : Ledger) (trade_value fee : ℚ) : Ledger :=
  createMarginTransfer ⟨.exchangeFee, .userWallet, trade_value * fee⟩ l

/-- Append a new limit order as active order (src/src/exchange.rs,
`append_limit_order`): the order-margin set gains the order, the order is
inserted into the active set, the user-id lookup entry is inserted
(replacing any entry with the same key, as `HashMap::insert` does), the new
required order margin is computed and compared with the current
USER_ORDER_MARGIN balance.  Per the source, both the Greater and the Less
branch build `Transaction::new(USER_ORDER_MARGIN_ACCOUNT,
USER_WALLET_ACCOUNT, difference)`; on equality no transfer happens. -/
def Exchange.append_limit_order (ex : Exchange) (o : LimitOrder) : Exchange :=
  let cs := ex.config.contract_spec
  let active := ex.active_limit_orders ++ [o]
  let lookup := (o.user_order_id, o.oid) ::
    ex.lookup_order_nonce_from_user_order_id.filter
      (fun p => p.1 ≠ o.user_order_id)
  let new_order_margin := orderMargin active cs.init_margin_req ex.position cs.fee_maker
  let order_margin_bal := ex.ledger.balanceOf .userOrderMargin
  let ledger :=
    if order_margin_bal < new_order_margin then
      createMarginTransfer
        ⟨.userOrderMargin, .userWallet, new_order_margin - order_margin_bal⟩
        ex.ledger
    else if new_order_margin < order_margin_bal then
      createMarginTransfer
        ⟨.userOrderMargin, .userWallet, order_margin_bal - new_order_margin⟩
        ex.ledger
    else ex.ledger
  { ex with
      active_limit_orders := active
      lookup_order_nonce_from_user_order_id := lookup
      ledger := ledger }

/-- Submit a new limit order (src/src/exchange.rs, `submit_limit_order`):
construction check (`LimitOrder::new` rejects non-positive quantity), the
quantity filter, the price filter, order id assignment (the counter
increments even when a later check rejects), the post-only rejection
against the current best quotes, the risk check and finally
`append_limit_order`.  Returns the pending order on success, the error and
the resulting exchange otherwise. -/
def Exchange.submit_limit_order (ex : Exchange) (side : Side)
    (limit_price quantity : ℚ) (user_order_id : ℕ) :
    Except Error LimitOrder × Exchange :=
  let cs := ex.config.contract_spec
  if quantity ≤ 0 then (.error (.orderError .OrderQuantityLTEZero), ex)
  else
    match cs.quantity_filter.validate_order_quantity quantity with
    | .error e => (.error (.orderError e), ex)
    | .ok _ =>
      match cs.price_filter.validate_limit_order limit_price
          ex.market_state.mid_price with
      | .error e => (.error (.filterError e), ex)
      | .ok _ =>
        let oid := ex.next_order_id
        let ex1 := { ex with next_order_id := oid + 1 }
        let order : LimitOrder :=
          ⟨oid, user_order_id, side, limit_price, quantity, .Unfilled⟩
        let rejected : Bool :=
          match side with
          | .Buy => decide (ex1.market_state.ask ≤ limit_price)
          | .Sell => decide (limit_price ≤ ex1.market_state.bid)
        if rejected then
          match side with
          | .Buy => (.error (.orderError .LimitPriceAboveAsk), ex1)
          | .Sell => (.error (.orderError .LimitPriceBelowBid), ex1)
        else
          match check_limit_order ex1.position order
              (ex1.ledger.balanceOf .userWallet) ex1.active_limit_orders
              cs.init_margin_req cs.fee_maker with
          | .error e => (.error (.riskError e), ex1)
          | .ok _ => (.ok order, ex1.append_limit_order order)

/-- Submit a new market order (src/src/exchange.rs, `submit_market_order`
and `settle_filled_market_order`): construction check, quantity filter,
order id assignment, fill price from the opposing best quote, the risk
check, then the taker fee is detracted and the position changed. -/
def Exchange.submit_market_order (ex : Exchange) (side : Side)
    (quantity : ℚ) : Except Error Unit × Exchange :=
  let cs := ex.config.contract_spec
  if quantity ≤ 0 then (.error (.orderError .OrderQuantityLTEZero), ex)
  else
    match cs.quantity_filter.validate_order_quantity quantity with
    | .error e => (.error (.orderError e), ex)
    | .ok _ =>
      let oid := ex.next_order_id
      let ex1 := { ex with next_order_id := oid + 1 }
      let fill_price :=
        match side with
        | .Buy => ex1.market_state.ask
        | .Sell => ex1.market_state.bid
      match check_market_order ex1.position side quantity fill_price
          (ex1.ledger.balanceOf .userWallet) cs.init_margin_req cs.fee_taker with
      | .error e => (.error (.riskError e), ex1)
      | .ok _ =>
        let l1 := detract_fee ex1.ledger (quantity * fill_price) cs.fee_taker
        let r := ex1.position.change_position quantity fill_price side l1
          cs.init_margin_req
        (.ok (), { ex1 with ledger := r.2, position := r.1 })

/-- Cancel an active limit order (src/src/exchange.rs,
`cancel_limit_order`): the order is removed from the active set (error
`OrderIdNotFound` when absent), the new order margin is computed and the
difference refunded from the order-margin account into the wallet when it
decreased.  The user-id lookup is untouched here, as in the source. -/
def Exchange.cancel_limit_order (ex : Exchange) (order_id : ℕ) :
    Except Error LimitOrder × Exchange :=
  let cs := ex.config.contract_spec
  match ex.active_limit_orders.find? (fun o => o.oid == order_id) with
  | none => (.error .OrderIdNotFound, ex)
  | some removed =>
    let active := ex.active_limit_orders.filter (fun o => o.oid ≠ order_id)
    let order_margin_bal := ex.ledger.balanceOf .userOrderMargin
    let new_order_margin :=
      orderMargin active cs.init_margin_req ex.position cs.fee_maker
    let ledger :=
      if new_order_margin < order_margin_bal then
        createMarginTransfer
          ⟨.userWallet, .userOrderMargin, order_margin_bal - new_order_margin⟩
          ex.ledger
      else ex.ledger
    (.ok removed, { ex with active_limit_orders := active, ledger := ledger })

/-- Cancel an active limit order by user order id (src/src/exchange.rs,
`cancel_order_by_user_id`): the lookup entry is removed (error
`UserOrderIdNotFound` when absent) and the cancel by order id runs. -/
def Exchange.cancel_order_by_user_id (ex : Exchange) (user_order_id : ℕ) :
    Except Error LimitOrder × Exchange :=
  match ex.lookup_order_nonce_from_user_order_id.find?
      (fun p => p.1 == user_order_id) with
  | none => (.error .UserOrderIdNotFound, ex)
  | some entry =>
    let ex1 := { ex with
      lookup_order_nonce_from_user_order_id :=
        ex.lookup_order_nonce_from_user_order_id.filter
          (fun p => p.1 ≠ user_order_id) }
    ex1.cancel_limit_order entry.2

/-- One iteration of the matching loop of src/src/exchange.rs
(`check_active_orders`), processing the still unvisited orders `todo` with
the already visited, still active orders accumulated in `done`.  For each
filled order: the order-margin set is updated first (the fully filled
order removed, a partially filled one updated), then the position is
changed at the limit price, then the order margin is recomputed and a
decrease refunded, then the maker fee is detracted.  Returns the final
position, ledger, active set, the emitted updates in iteration order, and
the user order ids of fully filled orders (whose lookup entries the source
removes afterwards). -/
structure MatchResult where
  position : Position
  ledger : Ledger
  active : List LimitOrder
  updates : List LimitOrderUpdate
  removedUids : List ℕ
deriving DecidableEq, Repr

/-- The matching loop of src/src/exchange.rs (`check_active_orders`); see
the `MatchResult` description. -/
def processOrders (imr fee_maker : ℚ) (mu : MarketUpdate)
    (pos : Position) (l : Ledger) (done : List LimitOrder)
    (todo : List LimitOrder) (updates : List LimitOrderUpdate)
    (removedUids : List ℕ) : MatchResult :=
  match todo with
  | [] => ⟨pos, l, done, updates, removedUids⟩
  | o :: rest =>
    match mu.limit_order_filled o with
    | none =>
      processOrders imr fee_maker mu pos l (done ++ [o]) rest updates
        removedUids
    | some filled_qty =>
      let order_margin_bal := l.balanceOf .userOrderMargin
      let fillRes := o.fill filled_qty
      let o1 := fillRes.1
      let fullyFilled := fillRes.2
      let done1 := if fullyFilled then done else done ++ [o1]
      let upd := if fullyFilled then LimitOrderUpdate.FullyFilled o1
        else LimitOrderUpdate.PartiallyFilled o1
      let r := pos.change_position filled_qty o.limit_price o.side l imr
      let new_order_margin := orderMargin (done1 ++ rest) imr r.1 fee_maker
      let l2 :=
        if new_order_margin < order_margin_bal then
          createMarginTransfer
            ⟨.userWallet, .userOrderMargin, order_margin_bal - new_order_margin⟩
            r.2
        else r.2
      let l3 := detract_fee l2 (filled_qty * o.limit_price) fee_maker
      let removed1 :=
        if fullyFilled then removedUids ++ [o.user_order_id] else removedUids
      processOrders imr fee_maker mu r.1 l3 done1 rest (updates ++ [upd])
        removed1

/-- Check for the execution of active limit orders
(src/src/exchange.rs, `check_active_orders`): runs the matching loop over
the active orders in ascending order-id order and removes the lookup
entries of executed orders. -/
def Exchange.check_active_orders (ex : Exchange) (mu : MarketUpdate) :
    List LimitOrderUpdate × Exchange :=
  let cs := ex.config.contract_spec
  let r :=
    processOrders cs.init_margin_req cs.fee_maker mu ex.position ex.ledger
      [] ex.active_limit_orders [] []
  (r.updates,
    { ex with
        position := r.position
        ledger := r.ledger
        active_limit_orders := r.active
        lookup_order_nonce_from_user_order_id :=
          ex.lookup_order_nonce_from_user_order_id.filter
            (fun p => !(r.removedUids.contains p.1)) })

/-- Update the exchange state with new market information
(src/src/exchange.rs, `Exchange::update_state`): the market state is
updated first (an invalid update returns its error with nothing changed),
then the maintenance-margin check runs on the already updated market state
— on failure its error is returned with no matching performed — and
finally the matching against the active orders produces the order
updates. -/
def Exchange.update_state (ex : Exchange) (timestamp_ns : ℤ)
    (mu : MarketUpdate) : Except Error (List LimitOrderUpdate) × Exchange :=
  match ex.market_state.update_state timestamp_ns mu
      ex.config.contract_spec.price_filter with
  | .error e => (.error e, ex)
  | .ok ms1 =>
    let ex1 := { ex with market_state := ms1 }
    match check_maintenance_margin ms1 ex1.position with
    | .error e => (.error (.riskError e), ex1)
    | .ok _ =>
      let r := ex1.check_active_orders mu
      (.ok r.1, r.2)

/-- A public operation on the exchange, with its arguments. -/
inductive Action where
  | updateState (timestamp_ns : ℤ) (mu : MarketUpdate)
  | submitMarketOrder (side : Side) (quantity : ℚ)
  | submitLimitOrder (side : Side) (limit_price quantity : ℚ)
      (user_order_id : ℕ)
  | cancelLimitOrder (order_id : ℕ)
  | cancelOrderByUserId (user_order_id : ℕ)
deriving DecidableEq, Repr

/-- Apply one public operation, keeping the resulting exchange state
(each operation returns its result together with the next state; on an
error the state is whatever the operation left behind). -/
def Exchange.step (ex : Exchange) : Action → Exchange
  | .updateState ts mu => (ex.update_state ts mu).2
  | .submitMarketOrder side qty => (ex.submit_market_order side qty).2
  | .submitLimitOrder side price qty uid =>
    (ex.submit_limit_order side price qty uid).2
  | .cancelLimitOrder oid => (ex.cancel_limit_order oid).2
  | .cancelOrderByUserId uid => (ex.cancel_order_by_user_id uid).2

/-- Apply a sequence of public operations in order. -/
def Exchange.run (ex : Exchange) : List Action → Exchange
  | [] => ex
  | a :: rest => (ex.step a).run rest

/-! ## Concrete states used by witnesses and counterexamples -/

/-- A permissive test configuration: starting balance 1000, full initial
margin requirement (leverage one), maker fee 2 bp, taker fee 6 bp, tick
sizes one, no min or max bounds, wide deviation allowance — the literal
scenario values of spec section 8. -/
def testConfig : Config :=
  { starting_wallet_balance := 1000
    contract_spec :=
      { init_margin_req := 1
        fee_maker := 2 / 10000
        fee_taker := 6 / 10000
        price_filter := ⟨none, none, 1, 1000⟩
        quantity_filter := ⟨none, none, 1⟩ } }

/-- A concrete exchange state: fresh ledger, neutral position, market at
bid 99 / ask 100. -/
def exNeutral : Exchange :=
  ⟨testConfig, ⟨99, 100, 1, 1⟩, 0, Ledger.initial 1000, .Neutral, [], []⟩

/-- A concrete exchange state holding a Long position of 1 contract at
entry 100, market at bid 100 / ask 101. -/
def exLong : Exchange :=
  ⟨testConfig, ⟨100, 101, 0, 1⟩, 1, Ledger.initial 1000, .Long ⟨1, 100⟩,
    [], []⟩

/-- A concrete exchange state with one active limit order carrying user
order id 7 and a lookup entry for it. -/
def exDup : Exchange :=
  ⟨testConfig, ⟨99, 100, 1, 1⟩, 1, Ledger.initial 1000, .Neutral,
    [⟨0, 7, .Buy, 98, 1, .Unfilled⟩], [(7, 0)]⟩

/-! ## Theorems -/

/-- The src/src/position_inner.rs variant of `increase_contracts`, which
updates the entry price before the quantity, does produce the
quantity-weighted average entry price. -/
theorem increase_contracts_fixed_avg (q e q2 p : ℚ) (l : Ledger) (imr : ℚ) :
    ((PositionInner.mk q e).increase_contracts_fixed q2 p l imr).1
      = ⟨q + q2, (q * e + q2 * p) / (q + q2)⟩ := rfl

/-- C2: code bug.  At the failing input — a Long position of quantity 1 at
entry price 100 receiving a Buy fill of quantity 1 at price 130 —
`Position::change_position` of src/src/position.rs produces entry price
110, because the source increases `self.quantity` before computing
`new_avg_entry_price`, so the average becomes
((q+q2)·e + q2·p)/(q+2·q2) instead of the claimed quantity-weighted
(q·e + q2·p)/(q+q2) = 115 (which src/src/position_inner.rs produces).
The resulting quantity q+q2 and the margin transfer of q2·p·imr are as
claimed. -/
theorem change_position_increase_entry_price_eval :
    (Position.change_position (.Long ⟨1, 100⟩) 1 130 .Buy
        (Ledger.initial 1000) 1).1 = .Long ⟨2, 110⟩
    ∧ ((1 : ℚ) * 100 + 1 * 130) / (1 + 1) = 115
    ∧ (110 : ℚ) ≠ 115 := by
  refine ⟨?_, by norm_num, by norm_num⟩
  norm_num [Position.change_position, PositionInner.increase_contracts,
    PositionInner.new_avg_entry_price]

/-- The unrealized pnl of a Long position, in closed form: matches the
claimed `q·(bid − entry)`. -/
theorem unrealized_pnl_long_formula (q e bid ask : ℚ) :
    Position.unrealized_pnl (.Long ⟨q, e⟩) bid ask = q * (bid - e) := by
  simp only [Position.unrealized_pnl, PositionInner.unrealized_pnl, quotePnl,
    mul_one]
  split_ifs with h
  · simp [h]
  · ring

/-- The unrealized pnl of a Short position, in closed form: the source
combines the direction multiplier −1 with `into_negative`, yielding
`q·(ask − entry)` — the negation of the claimed `q·(entry − ask)`. -/
theorem unrealized_pnl_short_formula (q e bid ask : ℚ) :
    Position.unrealized_pnl (.Short ⟨q, e⟩) bid ask = q * (ask - e) := by
  simp only [Position.unrealized_pnl, PositionInner.unrealized_pnl, quotePnl,
    mul_neg_one]
  split_ifs with h
  · simp [neg_eq_zero.mp h]
  · ring

/-- C3: code bug.  At the failing input — a Short position of quantity 1
at entry 100 with bid 89 and ask 90 — `Position::unrealized_pnl` of
src/src/position.rs returns −10: the Short arm applies `into_negative` on
top of the direction multiplier −1, a double negation, instead of the
claimed `q·(entry − ask)` = 10.  (The Long arm and the Neutral arm are as
claimed.) -/
theorem unrealized_pnl_short_eval :
    Position.unrealized_pnl (.Short ⟨1, 100⟩) 89 90 = -10
    ∧ (1 : ℚ) * (100 - 90) = 10
    ∧ (-10 : ℚ) ≠ 10 := by
  refine ⟨?_, by norm_num, by norm_num⟩
  norm_num [Position.unrealized_pnl, PositionInner.unrealized_pnl, quotePnl]

/-- C10: code bug.  `QuantityFilter::new` evaluates
`min_qty % tick_size` before checking the tick size for zero; with
`min_quantity = Some(1)` and `tick_size = 0` the remainder divides by zero
and the construction panics (modelled by `none`) rather than returning
`Err(ConfigError::InvalidTickSize)`.  Only with `min_quantity = None` is
the zero tick size rejected with the claimed error. -/
theorem quantity_filter_new_zero_tick_eval :
    QuantityFilter.new (some 1) none 0 = none
    ∧ QuantityFilter.new none none 0
      = some (Except.error ConfigError.InvalidTickSize) := by
  constructor <;> simp [QuantityFilter.new, checkedRem]

/-- C7 counterexample: `MarketState::update_state` of
src/src/market_state.rs accepts a timestamp smaller than the stored one.
With the stored timestamp 10, a valid trade update supplied at timestamp 5
returns Ok, sets `current_ts_ns` to 5 and increments the step — the claim
demands a `NonMonotonicTimestamp` error with no update instead. -/
theorem update_state_accepts_smaller_timestamp :
    (5 : ℤ) < 10
    ∧ MarketState.update_state ⟨100, 101, 10, 3⟩ 5 (.trade ⟨99, 1, .Buy⟩)
        ⟨none, none, 1, 1000⟩ = .ok ⟨100, 101, 5, 4⟩ := by
  refine ⟨by norm_num, ?_⟩
  norm_num [MarketState.update_state, MarketUpdate.validate_market_update,
    Trade.validate_market_update, enforce_min_price, enforce_max_price,
    enforce_step_size, remQ, truncQ, MarketUpdate.update_market_state,
    Except.bind, bind]

/-- C7 (amended): the source `update_state` performs no timestamp
comparison at all: whenever the market update passes the price-filter
validation the call succeeds — for any timestamp, larger or smaller than
the stored one — applies the update, sets `current_ts_ns` to the supplied
timestamp and increments the step counter by one. -/
theorem update_state_no_timestamp_check (ms : MarketState) (ts : ℤ)
    (mu : MarketUpdate) (pf : PriceFilter)
    (h : mu.validate_market_update pf = .ok ()) :
    ms.update_state ts mu pf =
      .ok ⟨(mu.update_market_state ms).bid, (mu.update_market_state ms).ask,
        ts, (mu.update_market_state ms).step + 1⟩ := by
  simp [MarketState.update_state, h]

theorem update_state_no_timestamp_check_witness :
    MarketUpdate.validate_market_update (.trade ⟨99, 1, .Buy⟩)
        ⟨none, none, 1, 1000⟩ = .ok ()
    ∧ MarketState.update_state ⟨100, 101, 10, 3⟩ 20 (.trade ⟨99, 1, .Buy⟩)
        ⟨none, none, 1, 1000⟩ = .ok ⟨100, 101, 20, 4⟩ := by
  have hv : MarketUpdate.validate_market_update
      (MarketUpdate.trade ⟨99, 1, .Buy⟩) ⟨none, none, 1, 1000⟩ = .ok () := by
    norm_num [MarketUpdate.validate_market_update,
      Trade.validate_market_update, enforce_min_price, enforce_max_price,
      enforce_step_size, remQ, truncQ, Except.bind, bind]
  refine ⟨hv, ?_⟩
  have h := update_state_no_timestamp_check ⟨100, 101, 10, 3⟩ 20
    (.trade ⟨99, 1, .Buy⟩) ⟨none, none, 1, 1000⟩ hv
  simpa [MarketUpdate.update_market_state] using h

/-- C4: `Trade::limit_order_filled` returns
`Some(min(trade.quantity, remaining))` exactly when the trade passes
strictly through the limit price on the opposite side — a resting Buy at
`L` needs a Sell trade with price `< L`, a resting Sell at `L` needs a Buy
trade with price `> L` — and `None` in every other case. -/
theorem limit_order_filled_iff (t : Trade) (o : LimitOrder)
    (hq : 0 < t.quantity) (hr : 0 < o.remaining_quantity) :
    (t.limit_order_filled o
        = some (min t.quantity o.remaining_quantity) ↔
      ((o.side = .Buy ∧ t.side = .Sell ∧ t.price < o.limit_price) ∨
       (o.side = .Sell ∧ t.side = .Buy ∧ o.limit_price < t.price)))
    ∧ (¬ ((o.side = .Buy ∧ t.side = .Sell ∧ t.price < o.limit_price) ∨
        (o.side = .Sell ∧ t.side = .Buy ∧ o.limit_price < t.price)) →
      t.limit_order_filled o = none) := by
  cases h : o.side <;> cases h2 : t.side <;>
    simp [Trade.limit_order_filled, h, h2]

theorem limit_order_filled_iff_witness :
    (0 : ℚ) < 5
    ∧ 0 < LimitOrder.remaining_quantity ⟨0, 0, .Buy, 98, 5, .Unfilled⟩
    ∧ Trade.limit_order_filled ⟨97, 5, .Sell⟩ ⟨0, 0, .Buy, 98, 5, .Unfilled⟩
      = some (min 5
          (LimitOrder.remaining_quantity ⟨0, 0, .Buy, 98, 5, .Unfilled⟩)) := by
  have hr : (0 : ℚ) <
      LimitOrder.remaining_quantity ⟨0, 0, .Buy, 98, 5, .Unfilled⟩ := by
    norm_num [LimitOrder.remaining_quantity, LimitOrder.cumulative]
  have h := limit_order_filled_iff ⟨97, 5, .Sell⟩
    ⟨0, 0, .Buy, 98, 5, .Unfilled⟩ (by norm_num) hr
  exact ⟨by norm_num, hr, h.1.mpr (Or.inl ⟨rfl, rfl, by norm_num⟩)⟩

/-- C8: turnaround equivalence.  From a Long position of quantity q at
entry e, one Sell fill of quantity 2·q at price p runs through exactly the
same decrease-then-open path as two consecutive Sell fills of quantity q
each: the final position is Short of q at entry p and the ledgers agree
transfer for transfer; the mirror holds for a Short position with Buy
fills. -/
theorem turnaround_equivalence (q e p imr : ℚ) (l : Ledger)
    (hq : 0 < q) (he : 0 < e) (hp : 0 < p) :
    (Position.change_position (.Long ⟨q, e⟩) (2 * q) p .Sell l imr =
      Position.change_position
        (Position.change_position (.Long ⟨q, e⟩) q p .Sell l imr).1 q p .Sell
        (Position.change_position (.Long ⟨q, e⟩) q p .Sell l imr).2 imr)
    ∧ (Position.change_position (.Long ⟨q, e⟩) (2 * q) p .Sell l imr).1
        = .Short ⟨q, p⟩
    ∧ (Position.change_position (.Short ⟨q, e⟩) (2 * q) p .Buy l imr =
      Position.change_position
        (Position.change_position (.Short ⟨q, e⟩) q p .Buy l imr).1 q p .Buy
        (Position.change_position (.Short ⟨q, e⟩) q p .Buy l imr).2 imr)
    ∧ (Position.change_position (.Short ⟨q, e⟩) (2 * q) p .Buy l imr).1
        = .Long ⟨q, p⟩ := by
  have h1 : q < 2 * q := by linarith
  have h2 : ¬ q < q := lt_irrefl q
  have h3 : 2 * q - q = q := by ring
  refine ⟨?_, ?_, ?_, ?_⟩ <;>
    simp [Position.change_position, PositionInner.new, h1, h2, h3]

theorem turnaround_equivalence_witness :
    (0 : ℚ) < 1 ∧ (0 : ℚ) < 100 ∧ (0 : ℚ) < 90
    ∧ (Position.change_position (.Long ⟨1, 100⟩) (2 * 1) 90 .Sell
        (Ledger.initial 1000) 1).1 = .Short ⟨1, 90⟩ := by
  have h := turnaround_equivalence 1 100 90 1 (Ledger.initial 1000)
    (by norm_num) (by norm_num) (by norm_num)
  exact ⟨by norm_num, by norm_num, by norm_num, h.2.1⟩

/-- A margin transfer posts the amount as a debit on one account and as a
credit on another, so the sum of the five net balances is unchanged. -/
theorem sumNet_createMarginTransfer (t : Transaction) (l : Ledger) :
    (createMarginTransfer t l).sumNet = l.sumNet := by
  obtain ⟨a, b, amt⟩ := t
  cases a <;> cases b <;>
    simp [createMarginTransfer, Ledger.sumNet, Ledger.acct, Ledger.setAcct,
      TAccount.net_balance, TAccount.post_debit, TAccount.post_credit] <;>
    ring

/-- The net balance of each single account after a margin transfer: the
debited account gains the amount, the credited account loses it, all
others are unchanged. -/
theorem balanceOf_createMarginTransfer (t : Transaction) (l : Ledger)
    (c : AccountId) :
    (createMarginTransfer t l).balanceOf c
      = l.balanceOf c + (if c = t.debitAccount then t.amount else 0)
        - (if c = t.creditAccount then t.amount else 0) := by
  obtain ⟨a, b, amt⟩ := t
  cases a <;> cases b <;> cases c <;>
    simp [createMarginTransfer, Ledger.balanceOf, Ledger.acct,
      Ledger.setAcct, TAccount.net_balance, TAccount.post_debit,
      TAccount.post_credit] <;>
    ring

theorem sumNet_positionInner_new (q e : ℚ) (l : Ledger) (imr : ℚ) :
    (PositionInner.new q e l imr).2.sumNet = l.sumNet := by
  simp [PositionInner.new, sumNet_createMarginTransfer]

theorem sumNet_increase_contracts (p : PositionInner) (q e : ℚ)
    (l : Ledger) (imr : ℚ) :
    (p.increase_contracts q e l imr).2.sumNet = l.sumNet := by
  simp [PositionInner.increase_contracts, sumNet_createMarginTransfer]

theorem sumNet_decrease_contracts (p : PositionInner) (q lp : ℚ)
    (l : Ledger) (imr mult : ℚ) :
    (p.decrease_contracts q lp l imr mult).2.sumNet = l.sumNet := by
  simp only [PositionInner.decrease_contracts]
  split_ifs <;> simp [sumNet_createMarginTransfer]

/-- Every path of `change_position` performs margin transfers only, so it
preserves the sum of the net balances. -/
theorem sumNet_change_position (pos : Position) (q p : ℚ) (s : Side)
    (l : Ledger) (imr : ℚ) :
    (pos.change_position q p s l imr).2.sumNet = l.sumNet := by
  cases pos <;> cases s <;>
    simp only [Position.change_position] <;>
    (try split_ifs) <;>
    simp [sumNet_positionInner_new, sumNet_increase_contracts,
      sumNet_decrease_contracts]

theorem sumNet_detract_fee (l : Ledger) (v fee : ℚ) :
    (detract_fee l v fee).sumNet = l.sumNet := by
  simp [detract_fee, sumNet_createMarginTransfer]

theorem sumNet_processOrders (imr fee : ℚ) (mu : MarketUpdate)
    (todo : List LimitOrder) :
    ∀ (pos : Position) (l : Ledger) (done : List LimitOrder)
      (updates : List LimitOrderUpdate) (removed : List ℕ),
      (processOrders imr fee mu pos l done todo updates
        removed).ledger.sumNet = l.sumNet := by
  induction todo with
  | nil => intro pos l done updates removed; rfl
  | cons o rest ih =>
    intro pos l done updates removed
    simp only [processOrders]
    cases h : mu.limit_order_filled o with
    | none => simp only [h]; exact ih pos l (done ++ [o]) updates removed
    | some q =>
      simp only [h]
      rw [ih]
      simp only [sumNet_detract_fee]
      split_ifs <;>
        simp [sumNet_createMarginTransfer, sumNet_change_position]

theorem sumNet_append_limit_order (ex : Exchange) (o : LimitOrder) :
    (ex.append_limit_order o).ledger.sumNet = ex.ledger.sumNet := by
  simp only [Exchange.append_limit_order]
  split_ifs <;> simp [sumNet_createMarginTransfer]

theorem sumNet_update_state (ex : Exchange) (ts : ℤ) (mu : MarketUpdate) :
    (ex.update_state ts mu).2.ledger.sumNet = ex.ledger.sumNet := by
  simp only [Exchange.update_state]
  split
  · rfl
  · split
    · rfl
    · simp [Exchange.check_active_orders, sumNet_processOrders]

theorem sumNet_submit_market_order (ex : Exchange) (s : Side) (q : ℚ) :
    (ex.submit_market_order s q).2.ledger.sumNet = ex.ledger.sumNet := by
  simp only [Exchange.submit_market_order]
  split
  · rfl
  · split
    · rfl
    · split
      · rfl
      · simp [sumNet_detract_fee, sumNet_change_position]

theorem sumNet_submit_limit_order (ex : Exchange) (s : Side) (p q : ℚ)
    (uid : ℕ) :
    (ex.submit_limit_order s p q uid).2.ledger.sumNet = ex.ledger.sumNet := by
  simp only [Exchange.submit_limit_order]
  split
  · rfl
  · split
    · rfl
    · split
      · rfl
      · split
        · split <;> rfl
        · split
          · rfl
          · simp [sumNet_append_limit_order]

theorem sumNet_cancel_limit_order (ex : Exchange) (oid : ℕ) :
    (ex.cancel_limit_order oid).2.ledger.sumNet = ex.ledger.sumNet := by
  simp only [Exchange.cancel_limit_order]
  split
  · rfl
  · split_ifs <;> simp [sumNet_createMarginTransfer]

theorem sumNet_cancel_order_by_user_id (ex : Exchange) (uid : ℕ) :
    (ex.cancel_order_by_user_id uid).2.ledger.sumNet
      = ex.ledger.sumNet := by
  simp only [Exchange.cancel_order_by_user_id]
  split
  · rfl
  · simp [sumNet_cancel_limit_order]

/-- Every single public operation preserves the sum of the net balances of
the five accounts. -/
theorem sumNet_step (ex : Exchange) (a : Action) :
    (ex.step a).ledger.sumNet = ex.ledger.sumNet := by
  cases a with
  | updateState ts mu => exact sumNet_update_state ex ts mu
  | submitMarketOrder s q => exact sumNet_submit_market_order ex s q
  | submitLimitOrder s p q uid => exact sumNet_submit_limit_order ex s p q uid
  | cancelLimitOrder oid => exact sumNet_cancel_limit_order ex oid
  | cancelOrderByUserId uid => exact sumNet_cancel_order_by_user_id ex uid

/-- C1: ledger conservation.  For every sequence of public operations
(update_state, submit_market_order, submit_limit_order,
cancel_limit_order, cancel_order_by_user_id) on an exchange constructed
with starting wallet balance B, after each operation the sum of the net
balances (debits − credits) of the five accounts USER_WALLET,
USER_POSITION_MARGIN, USER_ORDER_MARGIN, EXCHANGE_FEE and TREASURY equals
B exactly: every ledger mutation of every operation is a balanced
debit/credit transfer. -/
theorem ledger_conservation (cfg : Config) (acts : List Action) :
    ((Exchange.new cfg).run acts).ledger.sumNet
      = cfg.starting_wallet_balance := by
  have hrun : ∀ (acts : List Action) (ex : Exchange),
      (ex.run acts).ledger.sumNet = ex.ledger.sumNet := by
    intro acts
    induction acts with
    | nil => intro ex; rfl
    | cons a rest ih =>
      intro ex
      rw [Exchange.run, ih, sumNet_step]
  rw [hrun]
  simp [Exchange.new, Ledger.initial, Ledger.sumNet, TAccount.net_balance]

/-- Appending a pair with nonnegative price to the greedy offset fold never
decreases the remaining notional: the appended pair only consumes offset
capacity left over by the earlier pairs and contributes a nonnegative
term. -/
theorem remainingNotional_append_le (xs : List (ℚ × ℚ)) (x : ℚ × ℚ)
    (hx : 0 ≤ x.2) :
    ∀ s, remainingNotional xs s ≤ remainingNotional (xs ++ [x]) s := by
  induction xs with
  | nil =>
    intro s
    obtain ⟨x1, x2⟩ := x
    simp only [List.nil_append, remainingNotional]
    have h1 : (0 : ℚ) ≤ x1 - min x1 s := sub_nonneg.mpr (min_le_left _ _)
    have h2 : (0 : ℚ) ≤ (x1 - min x1 s) * x2 := mul_nonneg h1 hx
    linarith
  | cons hd tl ih =>
    intro s
    obtain ⟨q, p⟩ := hd
    simp only [List.cons_append, remainingNotional, List.append_eq]
    have := ih (s - min q s)
    linarith

theorem totalQty_append (xs ys : List (ℚ × ℚ)) :
    totalQty (xs ++ ys) = totalQty xs + totalQty ys := by
  simp [totalQty]

/-- Appending one order to the active set never decreases the spec-modelled
order margin requirement, as long as the order has nonnegative open
quantity and price, the fee and margin rates are nonnegative and the
position entry prices are nonnegative: the new order only adds open
quantity and notional on its own side and only shrinks the residual
position offset. -/
theorem orderMargin_le_append (orders : List LimitOrder) (o : LimitOrder)
    (imr fee_maker : ℚ) (pos : Position)
    (hq : 0 ≤ o.remaining_quantity) (hp : 0 ≤ o.limit_price)
    (himr : 0 ≤ imr) (hfee : 0 ≤ fee_maker)
    (hle : 0 ≤ pos.longEntry) (hse : 0 ≤ pos.shortEntry) :
    orderMargin orders imr pos fee_maker
      ≤ orderMargin (orders ++ [o]) imr pos fee_maker := by
  have hfeeR : feeReserve orders fee_maker
      ≤ feeReserve (orders ++ [o]) fee_maker := by
    have h0 : (0 : ℚ) ≤ o.remaining_quantity * o.limit_price * fee_maker :=
      mul_nonneg (mul_nonneg hq hp) hfee
    simp only [feeReserve, List.map_append, List.sum_append, List.map_cons,
      List.map_nil, List.sum_cons, List.sum_nil]
    linarith
  cases hside : o.side
  case Buy =>
    have hb : buysOf (orders ++ [o])
        = buysOf orders ++ [(o.remaining_quantity, o.limit_price)] := by
      simp [buysOf, List.filter_append, hside]
    have hs : sellsOf (orders ++ [o]) = sellsOf orders := by
      simp [sellsOf, List.filter_append, hside]
    simp only [orderMargin, hb, hs]
    have h1 : remainingNotional (buysOf orders) pos.shortQty
        ≤ remainingNotional
            (buysOf orders ++ [(o.remaining_quantity, o.limit_price)])
            pos.shortQty :=
      remainingNotional_append_le _ _ (by simpa using hp) _
    rw [totalQty_append]
    have h2 : totalQty [(o.remaining_quantity, o.limit_price)]
        = o.remaining_quantity := by simp [totalQty]
    rw [h2]
    have h3 : min (totalQty (buysOf orders)) pos.shortQty
        ≤ min (totalQty (buysOf orders) + o.remaining_quantity)
            pos.shortQty :=
      min_le_min (by linarith) le_rfl
    have h4 : (pos.shortQty
          - min (totalQty (buysOf orders) + o.remaining_quantity)
              pos.shortQty) * pos.shortEntry
        ≤ (pos.shortQty - min (totalQty (buysOf orders)) pos.shortQty)
            * pos.shortEntry := by
      apply mul_le_mul_of_nonneg_right _ hse
      linarith
    refine add_le_add ?_ hfeeR
    refine mul_le_mul_of_nonneg_right ?_ himr
    refine max_le_max ?_ le_rfl
    refine max_le_max ?_ le_rfl
    linarith
  case Sell =>
    have hb : buysOf (orders ++ [o]) = buysOf orders := by
      simp [buysOf, List.filter_append, hside]
    have hs : sellsOf (orders ++ [o])
        = sellsOf orders ++ [(o.remaining_quantity, o.limit_price)] := by
      simp [sellsOf, List.filter_append, hside]
    simp only [orderMargin, hb, hs]
    have h1 : remainingNotional (sellsOf orders) pos.longQty
        ≤ remainingNotional
            (sellsOf orders ++ [(o.remaining_quantity, o.limit_price)])
            pos.longQty :=
      remainingNotional_append_le _ _ (by simpa using hp) _
    rw [totalQty_append]
    have h2 : totalQty [(o.remaining_quantity, o.limit_price)]
        = o.remaining_quantity := by simp [totalQty]
    rw [h2]
    have h3 : min (totalQty (sellsOf orders)) pos.longQty
        ≤ min (totalQty (sellsOf orders) + o.remaining_quantity)
            pos.longQty :=
      min_le_min (by linarith) le_rfl
    have h4 : (pos.longQty
          - min (totalQty (sellsOf orders) + o.remaining_quantity)
              pos.longQty) * pos.longEntry
        ≤ (pos.longQty - min (totalQty (sellsOf orders)) pos.longQty)
            * pos.longEntry := by
      apply mul_le_mul_of_nonneg_right _ hle
      linarith
    refine add_le_add ?_ hfeeR
    refine mul_le_mul_of_nonneg_right ?_ himr
    refine max_le_max le_rfl ?_
    refine max_le_max ?_ le_rfl
    linarith

/-- C5: order-margin delta transfer on append.  Under the order-margin
agreement invariant (the USER_ORDER_MARGIN balance equals the requirement
of the current active set) and the nonnegativity of the order, the rates
and the entry prices, the newly computed requirement is never below the
reserved balance, so `append_limit_order` transfers exactly the difference
new − old ≥ 0 from the wallet into the order-margin account when the
requirement grew, makes no transfer at all when it is unchanged, and
afterwards the USER_ORDER_MARGIN balance equals the newly computed
requirement; the source branch for a smaller requirement cannot
trigger. -/
theorem append_limit_order_margin_agreement (ex : Exchange) (o : LimitOrder)
    (hbal : ex.ledger.balanceOf .userOrderMargin
      = orderMargin ex.active_limit_orders
          ex.config.contract_spec.init_margin_req ex.position
          ex.config.contract_spec.fee_maker)
    (hq : 0 ≤ o.remaining_quantity) (hp : 0 ≤ o.limit_price)
    (himr : 0 ≤ ex.config.contract_spec.init_margin_req)
    (hfee : 0 ≤ ex.config.contract_spec.fee_maker)
    (hle : 0 ≤ ex.position.longEntry) (hse : 0 ≤ ex.position.shortEntry) :
    ex.ledger.balanceOf .userOrderMargin
        ≤ orderMargin (ex.active_limit_orders ++ [o])
            ex.config.contract_spec.init_margin_req ex.position
            ex.config.contract_spec.fee_maker
    ∧ (ex.append_limit_order o).active_limit_orders
        = ex.active_limit_orders ++ [o]
    ∧ (ex.append_limit_order o).ledger.balanceOf .userOrderMargin
        = orderMargin (ex.active_limit_orders ++ [o])
            ex.config.contract_spec.init_margin_req ex.position
            ex.config.contract_spec.fee_maker
    ∧ (ex.append_limit_order o).ledger.balanceOf .userWallet
        = ex.ledger.balanceOf .userWallet
          - (orderMargin (ex.active_limit_orders ++ [o])
              ex.config.contract_spec.init_margin_req ex.position
              ex.config.contract_spec.fee_maker
            - ex.ledger.balanceOf .userOrderMargin)
    ∧ (orderMargin (ex.active_limit_orders ++ [o])
          ex.config.contract_spec.init_margin_req ex.position
          ex.config.contract_spec.fee_maker
        = ex.ledger.balanceOf .userOrderMargin
        → (ex.append_limit_order o).ledger = ex.ledger) := by
  have hmono : ex.ledger.balanceOf .userOrderMargin
      ≤ orderMargin (ex.active_limit_orders ++ [o])
          ex.config.contract_spec.init_margin_req ex.position
          ex.config.contract_spec.fee_maker := by
    rw [hbal]
    exact orderMargin_le_append _ o _ _ _ hq hp himr hfee hle hse
  refine ⟨hmono, by simp [Exchange.append_limit_order], ?_, ?_, ?_⟩
  · rcases lt_or_eq_of_le hmono with hlt | heq
    · simp only [Exchange.append_limit_order]
      rw [if_pos hlt]
      simp [balanceOf_createMarginTransfer]
    · simp only [Exchange.append_limit_order, ← heq]
      rw [if_neg (lt_irrefl _), if_neg (lt_irrefl _)]
  · rcases lt_or_eq_of_le hmono with hlt | heq
    · simp only [Exchange.append_limit_order]
      rw [if_pos hlt]
      simp [balanceOf_createMarginTransfer]
    · simp only [Exchange.append_limit_order, ← heq]
      rw [if_neg (lt_irrefl _), if_neg (lt_irrefl _)]
      simp
  · intro h
    simp only [Exchange.append_limit_order]
    rw [if_neg (by rw [h]; exact lt_irrefl _),
      if_neg (by rw [h]; exact lt_irrefl _)]

theorem append_limit_order_margin_agreement_witness :
    exNeutral.ledger.balanceOf .userOrderMargin
      = orderMargin exNeutral.active_limit_orders
          exNeutral.config.contract_spec.init_margin_req exNeutral.position
          exNeutral.config.contract_spec.fee_maker
    ∧ (exNeutral.append_limit_order ⟨0, 7, .Buy, 98, 1, .Unfilled⟩).ledger.balanceOf
        .userOrderMargin
      = orderMargin (exNeutral.active_limit_orders
            ++ [⟨0, 7, .Buy, 98, 1, .Unfilled⟩])
          exNeutral.config.contract_spec.init_margin_req exNeutral.position
          exNeutral.config.contract_spec.fee_maker := by
  have hbal : exNeutral.ledger.balanceOf .userOrderMargin
      = orderMargin exNeutral.active_limit_orders
          exNeutral.config.contract_spec.init_margin_req exNeutral.position
          exNeutral.config.contract_spec.fee_maker := by
    norm_num [exNeutral, testConfig, Ledger.initial, Ledger.balanceOf,
      Ledger.acct, TAccount.net_balance, orderMargin, buysOf, sellsOf,
      totalQty, remainingNotional, feeReserve, Position.shortQty,
      Position.longQty, Position.shortEntry, Position.longEntry]
  have h := append_limit_order_margin_agreement exNeutral
    ⟨0, 7, .Buy, 98, 1, .Unfilled⟩ hbal
    (by norm_num [LimitOrder.remaining_quantity, LimitOrder.cumulative])
    (by norm_num) (by norm_num [exNeutral, testConfig])
    (by norm_num [exNeutral, testConfig])
    (by norm_num [exNeutral, Position.longEntry])
    (by norm_num [exNeutral, Position.shortEntry])
  exact ⟨hbal, h.2.2.1⟩

/-- C6 (amended): when the maintenance-margin check fails inside
`update_state`, the risk error is returned and no matching occurs —
position, ledger, active orders and user-id lookup are all exactly as
before the call — but the market state has already been updated with the
new market data before the check runs, so the market state is the updated
one, not the pre-call one. -/
theorem update_state_maintenance_failure (ex : Exchange) (ts : ℤ)
    (mu : MarketUpdate) (ms1 : MarketState) (e : RiskError)
    (hval : ex.market_state.update_state ts mu
      ex.config.contract_spec.price_filter = .ok ms1)
    (hmm : check_maintenance_margin ms1 ex.position = .error e) :
    ex.update_state ts mu
      = (.error (.riskError e), { ex with market_state := ms1 }) := by
  simp [Exchange.update_state, hval, hmm]

/-- C6 counterexample: on a quote drop to bid 50 / ask 51 against a Long
of 1 at entry 100 the maintenance-margin check fails; `update_state`
returns the risk error with position, ledger and active orders untouched —
but the market state of the resulting exchange carries the new quotes and
is different from the market state before the call, so the externally
visible state is not unchanged. -/
theorem update_state_maintenance_failure_market_state_changed :
    (exLong.update_state 1 (.bba ⟨50, 51⟩)).1
      = .error (.riskError .MaintenanceMarginViolated)
    ∧ (exLong.update_state 1 (.bba ⟨50, 51⟩)).2.market_state
        ≠ exLong.market_state
    ∧ (exLong.update_state 1 (.bba ⟨50, 51⟩)).2.market_state
        = ⟨50, 51, 1, 2⟩
    ∧ (exLong.update_state 1 (.bba ⟨50, 51⟩)).2.position = exLong.position
    ∧ (exLong.update_state 1 (.bba ⟨50, 51⟩)).2.ledger = exLong.ledger
    ∧ (exLong.update_state 1 (.bba ⟨50, 51⟩)).2.active_limit_orders
        = exLong.active_limit_orders := by
  have hrun : exLong.update_state 1 (.bba ⟨50, 51⟩)
      = (.error (.riskError .MaintenanceMarginViolated),
         { exLong with market_state := ⟨50, 51, 1, 2⟩ }) := by
    norm_num [exLong, testConfig, Exchange.update_state,
      MarketState.update_state, MarketUpdate.validate_market_update,
      Bba.validate_market_update, enforce_min_price, enforce_max_price,
      enforce_step_size, remQ, truncQ, MarketUpdate.update_market_state,
      check_maintenance_margin]
  rw [hrun]
  refine ⟨rfl, ?_, rfl, rfl, rfl, rfl⟩
  norm_num [exLong, MarketState.mk.injEq]

/-- C9 (amended): `submit_limit_order` performs no duplicate user-id
check.  Whenever the construction check, the quantity filter, the price
filter, the post-only check and the risk check pass, the order is accepted
regardless of its user id: it is appended to the active set (an existing
order with the same user id stays active), and the lookup entry for its
user id is overwritten with the new order id, so the lookup maps the id to
the most recently appended order only. -/
theorem submit_limit_order_duplicate_uid (ex : Exchange) (side : Side)
    (price qty : ℚ) (uid : ℕ)
    (hq : ¬ qty ≤ 0)
    (hqf : ex.config.contract_spec.quantity_filter.validate_order_quantity
      qty = .ok ())
    (hpf : ex.config.contract_spec.price_filter.validate_limit_order price
      ex.market_state.mid_price = .ok ())
    (hbuy : side = .Buy → ¬ ex.market_state.ask ≤ price)
    (hsell : side = .Sell → ¬ price ≤ ex.market_state.bid)
    (hrisk : check_limit_order ex.position
      ⟨ex.next_order_id, uid, side, price, qty, .Unfilled⟩
      (ex.ledger.balanceOf .userWallet) ex.active_limit_orders
      ex.config.contract_spec.init_margin_req
      ex.config.contract_spec.fee_maker = .ok ()) :
    (ex.submit_limit_order side price qty uid).1
      = .ok ⟨ex.next_order_id, uid, side, price, qty, .Unfilled⟩
    ∧ (ex.submit_limit_order side price qty uid).2.active_limit_orders
      = ex.active_limit_orders
        ++ [⟨ex.next_order_id, uid, side, price, qty, .Unfilled⟩]
    ∧ (ex.submit_limit_order side price qty
        uid).2.lookup_order_nonce_from_user_order_id
      = (uid, ex.next_order_id)
        :: ex.lookup_order_nonce_from_user_order_id.filter
            (fun p => p.1 ≠ uid) := by
  cases side
  case Buy =>
    have hb : ¬ ex.market_state.ask ≤ price := hbuy rfl
    simp only [Exchange.submit_limit_order, hqf, hpf, hrisk, hq, if_false,
      ite_false]
    simp [Exchange.append_limit_order, hb]
  case Sell =>
    have hs : ¬ price ≤ ex.market_state.bid := hsell rfl
    simp only [Exchange.submit_limit_order, hqf, hpf, hrisk, hq, if_false,
      ite_false]
    simp [Exchange.append_limit_order, hs]

/-- C9 counterexample: with an active order of user id 7 present,
submitting a second limit order with user id 7 does not return the
`DuplicateUserOrderId` error: it returns Ok, afterwards two active orders
carry user id 7, and the lookup maps 7 to the newer order id — the claim
demands rejection with unchanged state and at most one active order per
user id. -/
theorem submit_limit_order_duplicate_uid_accepted :
    exDup.active_limit_orders = [⟨0, 7, .Buy, 98, 1, .Unfilled⟩]
    ∧ (exDup.submit_limit_order .Buy 97 1 7).1
      = .ok ⟨1, 7, .Buy, 97, 1, .Unfilled⟩
    ∧ (exDup.submit_limit_order .Buy 97 1 7).2.active_limit_orders
      = [⟨0, 7, .Buy, 98, 1, .Unfilled⟩, ⟨1, 7, .Buy, 97, 1, .Unfilled⟩]
    ∧ (exDup.submit_limit_order .Buy 97 1
        7).2.lookup_order_nonce_from_user_order_id
      = [(7, 1)] := by
  have habs : |(5 : ℚ) / 2| = 5 / 2 := abs_of_nonneg (by norm_num)
  refine ⟨rfl, ?_, ?_, ?_⟩ <;>
    norm_num [exDup, testConfig, Exchange.submit_limit_order,
      Exchange.append_limit_order, QuantityFilter.validate_order_quantity,
      PriceFilter.validate_limit_order, enforce_min_price,
      enforce_max_price, enforce_step_size, remQ, truncQ,
      MarketState.mid_price, Except.bind, bind, habs, check_limit_order,
      orderMargin, buysOf, sellsOf, totalQty, remainingNotional, feeReserve,
      Position.shortQty, Position.longQty, Position.shortEntry,
      Position.longEntry, Ledger.initial, Ledger.balanceOf, Ledger.acct,
      TAccount.net_balance, LimitOrder.remaining_quantity,
      LimitOrder.cumulative]

theorem submit_limit_order_duplicate_uid_witness :
    ¬ (1 : ℚ) ≤ 0
    ∧ (exDup.submit_limit_order .Buy 97 1 7).1
      = .ok ⟨exDup.next_order_id, 7, .Buy, 97, 1, .Unfilled⟩ := by
  have habs : |(5 : ℚ) / 2| = 5 / 2 := abs_of_nonneg (by norm_num)
  have h := submit_limit_order_duplicate_uid exDup .Buy 97 1 7
    (by norm_num)
    (by norm_num [exDup, testConfig, QuantityFilter.validate_order_quantity,
      remQ, truncQ])
    (by norm_num [exDup, testConfig, PriceFilter.validate_limit_order,
      enforce_min_price, enforce_max_price, enforce_step_size, remQ,
      truncQ, MarketState.mid_price, Except.bind, bind, habs])
    (by intro _; norm_num [exDup])
    (by intro hcon; exact absurd hcon (by simp))
    (by norm_num [exDup, testConfig, check_limit_order, orderMargin,
      buysOf, sellsOf, totalQty, remainingNotional, feeReserve,
      Position.shortQty, Position.longQty, Position.shortEntry,
      Position.longEntry, Ledger.initial, Ledger.balanceOf, Ledger.acct,
      TAccount.net_balance, LimitOrder.remaining_quantity,
      LimitOrder.cumulative])
  exact ⟨by norm_num, h.1⟩

theorem update_state_maintenance_failure_witness :
    exLong.market_state.update_state 1 (.bba ⟨50, 51⟩)
        exLong.config.contract_spec.price_filter = .ok ⟨50, 51, 1, 2⟩
    ∧ check_maintenance_margin ⟨50, 51, 1, 2⟩ exLong.position
        = .error .MaintenanceMarginViolated
    ∧ exLong.update_state 1 (.bba ⟨50, 51⟩)
      = (.error (.riskError .MaintenanceMarginViolated),
         { exLong with market_state := ⟨50, 51, 1, 2⟩ }) := by
  have h1 : exLong.market_state.update_state 1 (.bba ⟨50, 51⟩)
      exLong.config.contract_spec.price_filter = .ok ⟨50, 51, 1, 2⟩ := by
    norm_num [exLong, testConfig, MarketState.update_state,
      MarketUpdate.validate_market_update, Bba.validate_market_update,
      enforce_min_price, enforce_max_price, enforce_step_size, remQ,
      truncQ, MarketUpdate.update_market_state]
  have h2 : check_maintenance_margin ⟨50, 51, 1, 2⟩ exLong.position
      = .error .MaintenanceMarginViolated := by
    norm_num [exLong, check_maintenance_margin]
  exact ⟨h1, h2, update_state_maintenance_failure exLong 1 _ _ _ h1 h2⟩

end Lfest
